import Mathlib

/-!
Verification of the desmeds repository (DES MEDS input maker).

This file gives a shallow embedding of the parts of
`desmeds/coaddsrc.py` and `desmeds/maker.py` that the verified claims
are about, and proves or refutes each claim.

Conventions of the embedding:
* Python dicts holding source-image records become the `SrcInfo`
  structure; dict keys that may be absent (`piff_path`, the derived
  `image_path`/`bkg_path`/`seg_path`/`psf_path`) become `Option` fields
  (`none` = key absent, so reading an absent key is a `KeyError`).
* Database query results are inputs: a query's row list is passed to the
  embedded function as a parameter, and the piff-file catalog dict is
  passed as an association list (the claims assume its keys unique).
* Python exceptions (`AssertionError`, `KeyError`, `RuntimeError`)
  become `Except` errors.
* Machine integers are `Int`/`Nat`; floating point numbers that only
  get carried around are `ℚ`, and float arithmetic (`_get_scale`,
  `_get_sigma_size`) is embedded as real arithmetic.
* `numpy.argsort` applied to build a sorted copy is embedded as a
  stable merge sort by the same key; on records whose keys are
  pairwise distinct this agrees with any correct sort.
-/

set_option maxRecDepth 40000

/-! ### Generic string/char helpers (Python `str` operations) -/

/-- Does the char list `l` start with `p`?  (Python slice comparison.) -/
def startsWithChars : List Char → List Char → Bool
  | _, [] => true
  | [], _ :: _ => false
  | a :: as_, b :: bs => a = b && startsWithChars as_ bs

/-- Does `sub` occur somewhere inside `l`?  (Python `in` on strings.) -/
def containsChars : List Char → List Char → Bool
  | [], sub => sub.isEmpty
  | a :: as_, sub => startsWithChars (a :: as_) sub || containsChars as_ sub

/-- Fuel-driven worker for `replaceChars`; the fuel is the length of the
remaining input, so the recursion is structural and kernel-reducible. -/
def replaceCharsAux (pat rep : List Char) : Nat → List Char → List Char
  | 0, l => l
  | _ + 1, [] => []
  | fuel + 1, c :: rest =>
    if startsWithChars (c :: rest) pat then
      rep ++ replaceCharsAux pat rep fuel (rest.drop (pat.length - 1))
    else
      c :: replaceCharsAux pat rep fuel rest

/-- Python `str.replace`: replace every non-overlapping occurrence of
`pat` by `rep`, scanning left to right.  An empty `pat` is never used by
the embedded code; we return the input unchanged in that case. -/
def replaceChars (l pat rep : List Char) : List Char :=
  if pat.isEmpty then l else replaceCharsAux pat rep l.length l

/-- Python `str.replace` on `String`s. -/
def strReplace (s pat rep : String) : String :=
  ⟨replaceChars s.data pat.data rep.data⟩

/-- Python `'Y6' in campaign` style substring test on `String`s. -/
def strContainsSub (s sub : String) : Bool := containsChars s.data sub.data

/-- `os.path.join` for two components (the only arity the code uses):
an absolute second component wins; otherwise insert a `/` separator
unless one is already there. -/
def pathJoin (a b : String) : String :=
  if b.data.head? = some (Char.ofNat 47) then b
  else if a = "" then b
  else if a.data.getLast? = some (Char.ofNat 47) then a ++ b
  else a ++ "/" ++ b

/-- Python `str.split(sep)` for a one-character separator, on char
lists (structural, so concrete instances evaluate in the kernel). -/
def splitChars (sep : Char) : List Char → List (List Char)
  | [] => [[]]
  | c :: rest =>
    match splitChars sep rest with
    | [] => [[]]
    | h :: t => if c = sep then [] :: h :: t else (c :: h) :: t

/-- Python `path.split('/')`. -/
def strSplitSlash (s : String) : List String :=
  (splitChars (Char.ofNat 47) s.data).map (fun l => ⟨l⟩)

/-- `os.path.dirname`: everything before the last slash. -/
def dirname (p : String) : String :=
  String.intercalate "/" ((strSplitSlash p).dropLast)

/-- `os.path.basename`: everything after the last slash. -/
def pathBasename (p : String) : String :=
  ((strSplitSlash p).getLast?).getD ""

/-! ### MD5 (`hashlib.md5(...).hexdigest()`)

The digest is returned as the natural number whose base-256 digits are
the 16 digest bytes in output order.  Since the hexdigest string is the
base-16 rendering of exactly those bytes in the same order, and all
hexdigests have the same length 32 over the alphabet `0-9a-f` (whose
ASCII codes are increasing), lexicographic comparison of hexdigest
strings coincides with numeric comparison of these numbers; the sort in
`CoaddSrc._sort_list` is therefore embedded as a sort by this number. -/

def md5K : List Nat :=
  [0xd76aa478, 0xe8c7b756, 0x242070db, 0xc1bdceee,
   0xf57c0faf, 0x4787c62a, 0xa8304613, 0xfd469501,
   0x698098d8, 0x8b44f7af, 0xffff5bb1, 0x895cd7be,
   0x6b901122, 0xfd987193, 0xa679438e, 0x49b40821,
   0xf61e2562, 0xc040b340, 0x265e5a51, 0xe9b6c7aa,
   0xd62f105d, 0x02441453, 0xd8a1e681, 0xe7d3fbc8,
   0x21e1cde6, 0xc33707d6, 0xf4d50d87, 0x455a14ed,
   0xa9e3e905, 0xfcefa3f8, 0x676f02d9, 0x8d2a4c8a,
   0xfffa3942, 0x8771f681, 0x6d9d6122, 0xfde5380c,
   0xa4beea44, 0x4bdecfa9, 0xf6bb4b60, 0xbebfbc70,
   0x289b7ec6, 0xeaa127fa, 0xd4ef3085, 0x04881d05,
   0xd9d4d039, 0xe6db99e5, 0x1fa27cf8, 0xc4ac5665,
   0xf4292244, 0x432aff97, 0xab9423a7, 0xfc93a039,
   0x655b59c3, 0x8f0ccc92, 0xffeff47d, 0x85845dd1,
   0x6fa87e4f, 0xfe2ce6e0, 0xa3014314, 0x4e0811a1,
   0xf7537e82, 0xbd3af235, 0x2ad7d2bb, 0xeb86d391]

def md5S : List Nat :=
  [7, 12, 17, 22, 7, 12, 17, 22, 7, 12, 17, 22, 7, 12, 17, 22,
   5, 9, 14, 20, 5, 9, 14, 20, 5, 9, 14, 20, 5, 9, 14, 20,
   4, 11, 16, 23, 4, 11, 16, 23, 4, 11, 16, 23, 4, 11, 16, 23,
   6, 10, 15, 21, 6, 10, 15, 21, 6, 10, 15, 21, 6, 10, 15, 21]

/-- 2^32, the word modulus of MD5. -/
def w32 : Nat := 4294967296

def rotl32 (x n : Nat) : Nat :=
  ((x <<< n) % w32) ||| (x >>> (32 - n))

def not32 (x : Nat) : Nat := 4294967295 - x

/-- Round function and message index of MD5 operation `i`. -/
def md5Mix (b c d i : Nat) : Nat × Nat :=
  if i < 16 then ((b &&& c) ||| (not32 b &&& d), i)
  else if i < 32 then ((d &&& b) ||| (not32 d &&& c), (5 * i + 1) % 16)
  else if i < 48 then (b ^^^ c ^^^ d, (3 * i + 5) % 16)
  else (c ^^^ (b ||| not32 d), (7 * i) % 16)

/-- Little-endian 32-bit word `g` of a 64-byte chunk. -/
def leWord (chunk : List Nat) (g : Nat) : Nat :=
  chunk.getD (4 * g) 0 + 256 * chunk.getD (4 * g + 1) 0 +
    65536 * chunk.getD (4 * g + 2) 0 + 16777216 * chunk.getD (4 * g + 3) 0

/-- One of the 64 MD5 operations. -/
def md5Op (chunk : List Nat) (st : Nat × Nat × Nat × Nat) (i : Nat) :
    Nat × Nat × Nat × Nat :=
  match st with
  | (a, b, c, d) =>
    let fg := md5Mix b c d i
    let f := (fg.1 + a + md5K.getD i 0 + leWord chunk fg.2) % w32
    (d, (b + rotl32 f (md5S.getD i 0)) % w32, b, c)

/-- Process one 64-byte chunk. -/
def md5Chunk (st : Nat × Nat × Nat × Nat) (chunk : List Nat) :
    Nat × Nat × Nat × Nat :=
  match st, (List.range 64).foldl (md5Op chunk) st with
  | (a0, b0, c0, d0), (a, b, c, d) =>
    ((a0 + a) % w32, (b0 + b) % w32, (c0 + c) % w32, (d0 + d) % w32)

/-- The original message length in bits, as 8 little-endian bytes. -/
def le64 (n : Nat) : List Nat :=
  (List.range 8).map (fun i => (n >>> (8 * i)) % 256)

/-- MD5 padding: a `0x80` byte, zeros to 56 mod 64, the 64-bit length. -/
def md5Pad (msg : List Nat) : List Nat :=
  msg ++ [128] ++ List.replicate ((119 - msg.length % 64) % 64) 0 ++
    le64 (8 * msg.length)

/-- Split into 64-byte chunks (fuel = list length keeps this structural). -/
def md5ChunksAux : Nat → List Nat → List (List Nat)
  | 0, _ => []
  | _, [] => []
  | fuel + 1, a :: l => (a :: l).take 64 :: md5ChunksAux fuel ((a :: l).drop 64)

def md5Chunks (l : List Nat) : List (List Nat) := md5ChunksAux l.length l

def le32bytes (x : Nat) : List Nat :=
  [x % 256, (x >>> 8) % 256, (x >>> 16) % 256, (x >>> 24) % 256]

/-- The MD5 digest of a byte list, as a single natural number whose
base-256 digits are the digest bytes in hexdigest order. -/
def md5Nat (msg : List Nat) : Nat :=
  match (md5Chunks (md5Pad msg)).foldl md5Chunk
      (0x67452301, 0xefcdab89, 0x98badcfe, 0x10325476) with
  | (a, b, c, d) =>
    (le32bytes a ++ le32bytes b ++ le32bytes c ++ le32bytes d).foldl
      (fun acc byte => acc * 256 + byte) 0

/-- UTF-8 bytes of a string (all strings hashed by the code are ASCII). -/
def strBytes (s : String) : List Nat := s.data.map Char.toNat

/-! ### `coaddsrc.py`: source records, canonical sort, piff cross-ref -/

/-- One single-epoch source record (`coaddsrc.py` builds these dicts in
`CoaddSrc._do_query`, lines 89-102).  The optional fields are dict keys
that later steps may add: `piff_path` by the piff cross-reference, the
four `*_path` fields by `_add_full_paths`. -/
structure SrcInfo where
  tilename : String
  expnum : Int
  ccdnum : Int
  filename : String
  compression : String
  path : String
  band : String
  pfw_attempt_id : Int
  magzp : ℚ
  piff_path : Option String := none
  image_path : Option String := none
  bkg_path : Option String := none
  seg_path : Option String := none
  psf_path : Option String := none
deriving DecidableEq, Repr

/-- One raw database row of the by-tile source query, in the column
order unpacked at `coaddsrc.py` line 90. -/
structure DbRow where
  tilename : String
  expnum : Int
  ccdnum : Int
  path : String
  filename : String
  compression : String
  band : String
  pfw_attempt_id : Int
  magzp : ℚ
deriving DecidableEq, Repr

/-- The dict literal of `CoaddSrc._do_query` lines 91-101. -/
def rowToInfo (r : DbRow) : SrcInfo :=
  { tilename := r.tilename, expnum := r.expnum, ccdnum := r.ccdnum,
    filename := r.filename, compression := r.compression, path := r.path,
    band := r.band, pfw_attempt_id := r.pfw_attempt_id, magzp := r.magzp }

/-- `"%s%s" % (info['expnum'], info['ccdnum'])` (`_sort_list` line 49). -/
def hash_str (r : SrcInfo) : String := toString r.expnum ++ toString r.ccdnum

/-- The MD5 hexdigest of the hash string, as a number (see `md5Nat`). -/
def md5key (r : SrcInfo) : Nat := md5Nat (strBytes (hash_str r))

/-- `CoaddSrc._sort_list`: sort the records by the MD5 hexdigest of the
concatenated exposure/ccd numbers.  `numpy.argsort` over the hexdigest
strings is embedded as a stable merge sort by the digest value
(hexdigest string order = digest numeric order, see `md5Nat`; on two
tied elements both return the input order). -/
def sort_list (l : List SrcInfo) : List SrcInfo :=
  l.mergeSort (fun a b => decide (md5key a ≤ md5key b))

/-- Key of the piff-file dict: `(im, band, expnum, ccdnum)` (line 122). -/
def piffKey (info : SrcInfo) : String × String × Int × Int :=
  (info.filename, info.band, info.expnum, info.ccdnum)

/-- The piff cross-reference loop of `_do_query` lines 124-135: keep the
records whose key is in the piff map, give each its `piff_path`, and
count the dropped ones.  The dict `piff_map` is embedded as an
association list with values `(path, piff_filename)`. -/
def piffCut (piffMap : List ((String × String × Int × Int) × (String × String))) :
    List SrcInfo → List SrcInfo × Nat
  | [] => ([], 0)
  | info :: rest =>
    let r := piffCut piffMap rest
    match List.lookup (piffKey info) piffMap with
    | some pf => ({ info with piff_path := some (pathJoin pf.1 pf.2) } :: r.1, r.2)
    | none => (r.1, r.2 + 1)

/-- `CoaddSrc._do_query`: the SQL execution is external, so the selected
row list `rows` and the piff query result (as the map it is read into)
are parameters; the embedded part is the row→record mapping and the
conditional piff cross-reference of lines 104-137.  The Python guard
`"piff_campaign" in self and self["piff_campaign"] is not None`
collapses to `piffc.isSome`. -/
def do_query (campaign : String) (piffc : Option String) (rows : List DbRow)
    (piffMap : List ((String × String × Int × Int) × (String × String))) :
    List SrcInfo × Nat :=
  let infos := rows.map rowToInfo
  if strContainsSub campaign "Y6" && piffc.isSome then piffCut piffMap infos
  else (infos, 0)

/-- Python exceptions raised by the embedded code. -/
inductive PyErr where
  | assertError : PyErr
  | keyError : PyErr
deriving DecidableEq, Repr

/-- The artifact kinds passed as `type` to `_get_dirs`. -/
inductive PathType where
  | seg : PathType
  | bkg : PathType
  | psf : PathType
  | piff : PathType
deriving DecidableEq, Repr

/-- Segment-level core of `CoaddSrc._extract_alt_dir` (after the
`path.split('/')`): `assert ps[-1]=='immask'`; for `bkg` replace the
last segment; for `seg`/`psf` drop it, `assert ps[-1]=='red'`, and
replace that.  Python `assert` failures become `.error .assertError`.
The `piff` branch never reaches this point (early return in the
source); it is mapped to the identity here for totality. -/
def alt_dir_core (ps : List String) (t : PathType) : Except PyErr (List String) :=
  if ps.getLast? = some "immask" then
    match t with
    | .piff => .ok ps
    | .bkg => .ok (ps.dropLast ++ ["bkg"])
    | .seg =>
      if ps.dropLast.getLast? = some "red" then
        .ok (ps.dropLast.dropLast ++ ["seg"])
      else .error .assertError
    | .psf =>
      if ps.dropLast.getLast? = some "red" then
        .ok (ps.dropLast.dropLast ++ ["psf"])
      else .error .assertError
  else .error .assertError

/-- `CoaddSrc._extract_alt_dir` lines 188-218: for `piff` the path is
returned unchanged before any check; otherwise split on `/`, transform,
and re-join. -/
def extract_alt_dir (path : String) (t : PathType) : Except PyErr String :=
  if t = PathType.piff then .ok path
  else (alt_dir_core (strSplitSlash path) t).map (String.intercalate "/")

/-- Modelled from the spec: `Coadd._get_dirs` lives in `coaddinfo.py`,
which is not among the sources; per the Path Deriver section the image
kind (no `type` argument) uses the record's base image directory
unchanged, and every other kind applies the declared alt-dir transform
(`_extract_alt_dir`, which is in the sources).  Only the `local_dir`
component of the returned dict is used by `_add_full_paths`. -/
def get_dirs (path : String) : Option PathType → Except PyErr String
  | none => .ok path
  | some t => extract_alt_dir path t

/-- The `dirdict` built by `CoaddSrc._get_all_dirs` lines 176-186. -/
structure DirDict where
  image : String
  seg : String
  bkg : String
  psf : String
  piff : Option String
deriving DecidableEq, Repr

/-- `CoaddSrc._get_all_dirs`: reading `info['piff_path']` when the
piff campaign is configured but the key was never added raises a
`KeyError` (line 185). -/
def get_all_dirs (piffc : Option String) (info : SrcInfo) : Except PyErr DirDict := do
  let image ← get_dirs info.path none
  let seg ← get_dirs info.path (some PathType.seg)
  let bkg ← get_dirs info.path (some PathType.bkg)
  let psf ← get_dirs info.path (some PathType.psf)
  if piffc.isSome then
    match info.piff_path with
    | none => throw PyErr.keyError
    | some pp =>
      let piff ← get_dirs (dirname pp) (some PathType.piff)
      pure ⟨image, seg, bkg, psf, some piff⟩
  else
    pure ⟨image, seg, bkg, psf, none⟩

/-- The body of the `_add_full_paths` loop (lines 146-174) for one
record: build the dir dict, then attach the four derived paths, and,
when a piff campaign is configured, rewrite `piff_path` to live in the
piff directory. -/
def add_full_paths_one (piffc : Option String) (info : SrcInfo) :
    Except PyErr SrcInfo := do
  let dirs ← get_all_dirs piffc info
  let info1 := { info with
    image_path := some (pathJoin dirs.image (info.filename ++ info.compression)),
    bkg_path := some (pathJoin dirs.bkg
      (strReplace info.filename "immasked.fits" "bkg.fits" ++ info.compression)),
    seg_path := some (pathJoin dirs.seg
      (strReplace info.filename "immasked.fits" "segmap.fits" ++ info.compression)),
    psf_path := some (pathJoin dirs.psf
      (strReplace info.filename "immasked.fits" "psfexcat.psf")) }
  if piffc.isSome then
    match dirs.piff, info.piff_path with
    | some dp, some pp =>
      pure { info1 with piff_path := some (pathJoin dp (pathBasename pp)) }
    | _, _ => throw PyErr.keyError
  else
    pure info1

/-- `CoaddSrc._add_full_paths`: the in-place loop over the record list;
the first raised exception aborts the whole batch. -/
def add_full_paths (piffc : Option String) : List SrcInfo → Except PyErr (List SrcInfo)
  | [] => .ok []
  | info :: rest => do
    let info1 ← add_full_paths_one piffc info
    let rest1 ← add_full_paths piffc rest
    pure (info1 :: rest1)

/-- `CoaddSrc.get_info` lines 20-38 (first call; the `_info_list`
memoisation is irrelevant to a single invocation): query, sort for
stability, then add the full path info. -/
def get_info (campaign : String) (piffc : Option String) (rows : List DbRow)
    (piffMap : List ((String × String × Int × Int) × (String × String))) :
    Except PyErr (List SrcInfo) :=
  let q := do_query campaign piffc rows piffMap
  add_full_paths piffc (sort_list q.1)

/-! ### `maker.py`: box sizes, scale, object data, compression -/

/-- The configuration keys used by `DESMEDSMaker._get_box_sizes`. -/
structure BoxConf where
  min_box_size : Int
  max_box_size : Int
  allowed_box_sizes : List Int
deriving DecidableEq, Repr

/-- The bin-edge list of `_get_box_sizes` lines 383-389: `[0]`, the
allowed sizes within `[min_box_size, max_box_size]`, and
`max_box_size` appended when the last entry differs from it. -/
def boxBins (cfg : BoxConf) : List Int :=
  let bins := 0 :: cfg.allowed_box_sizes.filter
    (fun sze => cfg.min_box_size ≤ sze && sze ≤ cfg.max_box_size)
  if bins.getLast? = some cfg.max_box_size then bins else bins ++ [cfg.max_box_size]

/-- `numpy.digitize(x, bins, right=True)` for monotonically increasing
`bins`: the number of bin edges strictly below `x`, i.e. the index of
the first edge `≥ x` (or `bins.length` when there is none). -/
def digitizeRight (x : Int) (bins : List Int) : Nat :=
  (bins.takeWhile (fun b => decide (b < x))).length

/-- `numpy.clip(a, lo, hi)` = `minimum(maximum(a, lo), hi)`. -/
def npClip (a lo hi : Int) : Int := min (max a lo) hi

/-- `DESMEDSMaker._get_box_sizes` for one catalog row, with the
`sigma_size` input computed separately (as in the source, where
`_get_sigma_size` produces it): candidate = max of column extent + 1,
row extent + 1 and `sigma_size`; clip to the configured range; snap via
`digitize`/bin indexing. -/
def get_box_size (cfg : BoxConf) (ymin ymax xmin xmax sigma_size : Int) : Int :=
  let row_size := ymax - ymin + 1
  let col_size := xmax - xmin + 1
  let box_size := max (max col_size row_size) sigma_size
  let box_size := npClip box_size cfg.min_box_size cfg.max_box_size
  let bins := boxBins cfg
  bins.getD (digitizeRight box_size bins) 0

/-- `fwhm_fac = 2*sqrt(2*log(2))` (`maker.py` line 47). -/
noncomputable def fwhm_fac : ℝ := 2 * Real.sqrt (2 * Real.log 2)

/-- `DESMEDSMaker._get_sigma_size` for one catalog row, with the float
arithmetic embedded as real arithmetic (`numpy.ceil` then `astype` of
the nonnegative-integer-valued float is `Int.ceil`). -/
noncomputable def get_sigma_size (flux_radius a_world b_world sigma_fac : ℝ) : Int :=
  let ellipticity := 1 - b_world / a_world
  let sigma := flux_radius * 2 / fwhm_fac
  let drad := sigma * sigma_fac * (1 + ellipticity)
  2 * ⌈drad⌉

/-- `DESMEDSMaker._get_scale` line 225: `10.0**(0.4*(magzp_ref - magzp))`. -/
noncomputable def get_scale (magzp_ref magzp : ℝ) : ℝ :=
  (10 : ℝ) ^ (0.4 * (magzp_ref - magzp))

/-- The per-row scale assignment of `_build_image_data` (each row's
scale comes from that row's own zero-point, lines 186 and 215). -/
noncomputable def image_scales (magzp_ref : ℝ) (magzps : List ℝ) : List ℝ :=
  magzps.map (get_scale magzp_ref)

/-- One row of the external identity lookup (`coadd_objects_id`,
`object_number`) of `_get_coadd_objects_ids`. -/
structure IdRow where
  object_number : Int
  coadd_objects_id : Int
deriving DecidableEq, Repr

/-- One emitted object-data row, restricted to the fields involved in
identity reconciliation; the geometry fields (positions, ra/dec) come
from the external WCS library, which the spec puts out of scope. -/
structure ObjRecord where
  number : Int
  id : Int
deriving DecidableEq, Repr

/-- The identity-reconciliation part of `DESMEDSMaker._build_object_data`
lines 436-445: sort the lookup result by `object_number`
(`numpy.argsort`, embedded as a stable merge sort), require elementwise
equality with the catalog's `number` column, and on success assign each
row's `coadd_objects_id` in catalog order; the failed `assert` aborts
with no list produced. -/
def build_object_data (catNumbers : List Int) (iddata : List IdRow) :
    Except PyErr (List ObjRecord) :=
  let s := iddata.mergeSort (fun a b => decide (a.object_number ≤ b.object_number))
  if catNumbers = s.map IdRow.object_number then
    .ok (List.zipWith (fun n r => ⟨n, r.coadd_objects_id⟩) catNumbers s)
  else .error PyErr.assertError

/-- `DESMEDSMakerDESDM._get_coadd_objects_ids` lines 841-857: the mocked
lookup returns `object_number = 1..nobj` with every
`coadd_objects_id = -1`. -/
def desdm_iddata (nobj : Nat) : List IdRow :=
  (List.range nobj).map (fun i => ⟨1 + Int.ofNat i, -1⟩)

/-- Object-data construction in the DESDM variant: the catalog is
sorted by `number` in `_read_coadd_cat` (line 734), then
`_build_object_data` runs against the mocked lookup. -/
def desdm_build_object_data (catNumbers : List Int) : Except PyErr (List ObjRecord) :=
  let catS := catNumbers.mergeSort (fun a b => decide (a ≤ b))
  build_object_data catS (desdm_iddata catNumbers.length)

/-- A file-system state: which paths hold which contents. -/
def FsState := List (String × String)
deriving instance DecidableEq, Repr for FsState

def fsExists (fs : FsState) (p : String) : Bool :=
  (List.lookup p fs).isSome

def fsRemove (fs : FsState) (p : String) : FsState :=
  fs.filter (fun e => !(e.1 == p))

def fsSet (fs : FsState) (p c : String) : FsState :=
  (p, c) :: fsRemove fs p

/-- `DESMEDSMaker._compress_meds_file` lines 515-541.  The external
pieces are parameters: `fpackExit` is the exit status of the external
`fpack` invocation and `fpackOut` the compressed content it would
produce.  `files.expandpath` (not among the sources) is the identity on
the already-absolute final path.  The `StagedOutFile` context manager is
modelled from the spec: the write happens at a private staged location,
is published to the final path on success, and is discarded leaving the
final path untouched on failure.  The source first deletes any existing
file at the final path (lines 529-531), then runs the compressor inside
the staged scope and raises `RuntimeError` on a nonzero exit status. -/
def compress_meds_file (fs : FsState) (fzfilename : String) (fpackExit : Int)
    (fpackOut : String) : FsState × Option String :=
  let fs1 := if fsExists fs fzfilename then fsRemove fs fzfilename else fs
  if fpackExit ≠ 0 then (fs1, some "failed to compress file")
  else (fsSet fs1 fzfilename fpackOut, none)

/-! ### Lemmas: box-size selection -/

/-- The clipped candidate box size fed into the bin snap. -/
def clip_box (cfg : BoxConf) (ymin ymax xmin xmax sigma_size : Int) : Int :=
  npClip (max (max (xmax - xmin + 1) (ymax - ymin + 1)) sigma_size)
    cfg.min_box_size cfg.max_box_size

lemma get_box_size_eq (cfg : BoxConf) (ymin ymax xmin xmax sigma_size : Int) :
    get_box_size cfg ymin ymax xmin xmax sigma_size =
      (boxBins cfg).getD
        (digitizeRight (clip_box cfg ymin ymax xmin xmax sigma_size) (boxBins cfg)) 0 :=
  rfl

/-- For `bins` ascending and `x` bounded by some bin, indexing `bins` at
`digitizeRight x bins` produces the least bin edge `≥ x`. -/
lemma digitize_least {x : Int} :
    ∀ {bins : List Int}, bins.Sorted (· ≤ ·) → (∃ b ∈ bins, x ≤ b) →
      bins.getD (digitizeRight x bins) 0 ∈ bins ∧
      x ≤ bins.getD (digitizeRight x bins) 0 ∧
      ∀ y ∈ bins, x ≤ y → bins.getD (digitizeRight x bins) 0 ≤ y
  | [], _, hex => by simp at hex
  | b :: bs, hsort, hex => by
    rcases List.sorted_cons.mp hsort with ⟨hb, hbs⟩
    by_cases hbx : b < x
    · have hex' : ∃ y ∈ bs, x ≤ y := by
        rcases hex with ⟨y, hy, hxy⟩
        rcases List.mem_cons.mp hy with rfl | hy'
        · exact absurd (lt_of_lt_of_le hbx hxy) (lt_irrefl _)
        · exact ⟨y, hy', hxy⟩
      have ih := digitize_least hbs hex'
      have hdig : digitizeRight x (b :: bs) = digitizeRight x bs + 1 := by
        simp [digitizeRight, List.takeWhile_cons, hbx]
      rw [hdig, List.getD_cons_succ]
      refine ⟨List.mem_cons_of_mem _ ih.1, ih.2.1, ?_⟩
      intro y hy hxy
      rcases List.mem_cons.mp hy with rfl | hy'
      · exact absurd (lt_of_lt_of_le hbx hxy) (lt_irrefl _)
      · exact ih.2.2 y hy' hxy
    · have hdig : digitizeRight x (b :: bs) = 0 := by
        simp [digitizeRight, List.takeWhile_cons, hbx]
      rw [hdig, List.getD_cons_zero]
      refine ⟨List.mem_cons_self _ _, not_lt.mp hbx, ?_⟩
      intro y hy _
      rcases List.mem_cons.mp hy with rfl | hy'
      · exact le_refl _
      · exact hb y hy'

lemma mem_max_boxBins (cfg : BoxConf) : cfg.max_box_size ∈ boxBins cfg := by
  unfold boxBins
  by_cases hl : (0 :: cfg.allowed_box_sizes.filter
      (fun sze => cfg.min_box_size ≤ sze && sze ≤ cfg.max_box_size)).getLast? =
      some cfg.max_box_size
  · simpa [hl] using List.mem_of_mem_getLast? hl
  · simp [hl]

lemma boxBins_sorted (cfg : BoxConf) (h1 : 1 ≤ cfg.min_box_size)
    (h2 : cfg.min_box_size ≤ cfg.max_box_size)
    (hall : cfg.allowed_box_sizes.Sorted (· ≤ ·)) :
    (boxBins cfg).Sorted (· ≤ ·) := by
  unfold boxBins
  have hf : (cfg.allowed_box_sizes.filter
      (fun sze => cfg.min_box_size ≤ sze && sze ≤ cfg.max_box_size)).Sorted (· ≤ ·) :=
    hall.filter _
  have hmem : ∀ b ∈ cfg.allowed_box_sizes.filter
      (fun sze => cfg.min_box_size ≤ sze && sze ≤ cfg.max_box_size),
      cfg.min_box_size ≤ b ∧ b ≤ cfg.max_box_size := by
    intro b hb
    have := (List.mem_filter.mp hb).2
    simp only [Bool.and_eq_true, decide_eq_true_eq] at this
    exact this
  have h0f : List.Sorted (· ≤ ·) (0 :: cfg.allowed_box_sizes.filter
      (fun sze => cfg.min_box_size ≤ sze && sze ≤ cfg.max_box_size)) := by
    refine List.sorted_cons.mpr ⟨fun b hb => ?_, hf⟩
    have := (hmem b hb).1
    omega
  by_cases hl : (0 :: cfg.allowed_box_sizes.filter
      (fun sze => cfg.min_box_size ≤ sze && sze ≤ cfg.max_box_size)).getLast? =
      some cfg.max_box_size
  · simpa [hl] using h0f
  · simp only [hl, if_false]
    rw [List.Sorted, List.pairwise_append]
    refine ⟨h0f, List.pairwise_singleton _ _, ?_⟩
    intro a ha b hb
    simp only [List.mem_singleton] at hb
    subst hb
    rcases List.mem_cons.mp ha with rfl | ha'
    · omega
    · exact (hmem a ha').2

lemma clip_box_le_max (cfg : BoxConf) (ymin ymax xmin xmax sigma_size : Int) :
    clip_box cfg ymin ymax xmin xmax sigma_size ≤ cfg.max_box_size :=
  min_le_right _ _

lemma min_le_clip_box (cfg : BoxConf) (h2 : cfg.min_box_size ≤ cfg.max_box_size)
    (ymin ymax xmin xmax sigma_size : Int) :
    cfg.min_box_size ≤ clip_box cfg ymin ymax xmin xmax sigma_size :=
  le_min (le_max_right _ _) h2

/-- The central property of `_get_box_sizes`: the chosen size is the
least bin edge that is at least the clipped candidate. -/
lemma get_box_size_least (cfg : BoxConf) (h1 : 1 ≤ cfg.min_box_size)
    (h2 : cfg.min_box_size ≤ cfg.max_box_size)
    (hall : cfg.allowed_box_sizes.Sorted (· ≤ ·))
    (ymin ymax xmin xmax sigma_size : Int) :
    get_box_size cfg ymin ymax xmin xmax sigma_size ∈ boxBins cfg ∧
    clip_box cfg ymin ymax xmin xmax sigma_size ≤
      get_box_size cfg ymin ymax xmin xmax sigma_size ∧
    ∀ y ∈ boxBins cfg, clip_box cfg ymin ymax xmin xmax sigma_size ≤ y →
      get_box_size cfg ymin ymax xmin xmax sigma_size ≤ y := by
  rw [get_box_size_eq]
  exact digitize_least (boxBins_sorted cfg h1 h2 hall)
    ⟨cfg.max_box_size, mem_max_boxBins cfg, clip_box_le_max cfg ymin ymax xmin xmax sigma_size⟩

lemma mem_boxBins_cases (cfg : BoxConf) {b : Int} (hb : b ∈ boxBins cfg) :
    b = 0 ∨ b ∈ cfg.allowed_box_sizes ∨ b = cfg.max_box_size := by
  unfold boxBins at hb
  by_cases hl : (0 :: cfg.allowed_box_sizes.filter
      (fun sze => cfg.min_box_size ≤ sze && sze ≤ cfg.max_box_size)).getLast? =
      some cfg.max_box_size
  · simp only [hl, if_true] at hb
    rcases List.mem_cons.mp hb with rfl | hb'
    · exact Or.inl rfl
    · exact Or.inr (Or.inl ((List.mem_filter.mp hb').1))
  · simp only [hl, if_false, List.mem_append, List.mem_singleton] at hb
    rcases hb with hb | rfl
    · rcases List.mem_cons.mp hb with rfl | hb'
      · exact Or.inl rfl
      · exact Or.inr (Or.inl ((List.mem_filter.mp hb').1))
    · exact Or.inr (Or.inr rfl)

/-! ### Claim C2 -/

/-- C2: for every detection the chosen box size is obtained as
`sigma_size = 2*ceil(flux_radius*2/(2*sqrt(2*ln 2)) * sigma_fac *
(1 + (1 - b_world/a_world)))`; the candidate (max of row extent + 1,
col extent + 1 and `sigma_size`) is clipped to
`[min_box_size, max_box_size]` and then snapped up to the smallest bin
edge `≥` the clipped value, the bin edges being `0` followed by the
allowed sizes within range with `max_box_size` as final edge; and the
(10×10, sigma 8) / (50×50, sigma 40) detections with min 16, max 256,
allowed `[16,32,64,128,256]` get sizes 16 and 64. -/
theorem C2_box_size (cfg : BoxConf) (ymin ymax xmin xmax sigma_size : Int)
    (flux_radius a_world b_world sigma_fac : ℝ)
    (h1 : 1 ≤ cfg.min_box_size) (h2 : cfg.min_box_size ≤ cfg.max_box_size)
    (hall : cfg.allowed_box_sizes.Sorted (· ≤ ·)) :
    (get_sigma_size flux_radius a_world b_world sigma_fac =
      2 * ⌈flux_radius * 2 / (2 * Real.sqrt (2 * Real.log 2)) * sigma_fac *
        (1 + (1 - b_world / a_world))⌉) ∧
    (get_box_size cfg ymin ymax xmin xmax sigma_size ∈ boxBins cfg ∧
     clip_box cfg ymin ymax xmin xmax sigma_size ≤
       get_box_size cfg ymin ymax xmin xmax sigma_size ∧
     ∀ y ∈ boxBins cfg, clip_box cfg ymin ymax xmin xmax sigma_size ≤ y →
       get_box_size cfg ymin ymax xmin xmax sigma_size ≤ y) ∧
    (get_box_size ⟨16, 256, [16, 32, 64, 128, 256]⟩ 1 10 1 10 8 = 16 ∧
     get_box_size ⟨16, 256, [16, 32, 64, 128, 256]⟩ 1 50 1 50 40 = 64) := by
  refine ⟨?_, get_box_size_least cfg h1 h2 hall ymin ymax xmin xmax sigma_size,
    by decide, by decide⟩
  simp only [get_sigma_size, fwhm_fac]

theorem C2_box_size_witness :
    get_box_size ⟨16, 256, [16, 32, 64, 128, 256]⟩ 1 10 1 10 8 = 16 ∧
    get_box_size ⟨16, 256, [16, 32, 64, 128, 256]⟩ 1 50 1 50 40 = 64 :=
  (C2_box_size ⟨16, 256, [16, 32, 64, 128, 256]⟩ 1 10 1 10 8 0 1 1 1
    (by decide) (by decide) (by decide)).2.2

/-! ### Claim C7 -/

/-- C7: box-size selection is monotone (non-decreasing) in the row
extent, the column extent and `sigma_size`, and the chosen size is a
member of the configured allowed-size list or equals `max_box_size`
(for a well-formed configuration: `1 ≤ min_box_size ≤ max_box_size`,
ascending allowed list). -/
theorem C7_box_size_monotone_member (cfg : BoxConf)
    (h1 : 1 ≤ cfg.min_box_size) (h2 : cfg.min_box_size ≤ cfg.max_box_size)
    (hall : cfg.allowed_box_sizes.Sorted (· ≤ ·))
    (ymin ymax xmin xmax sigma_size ymin' ymax' xmin' xmax' sigma_size' : Int)
    (hrow : ymax - ymin ≤ ymax' - ymin') (hcol : xmax - xmin ≤ xmax' - xmin')
    (hsig : sigma_size ≤ sigma_size') :
    get_box_size cfg ymin ymax xmin xmax sigma_size ≤
      get_box_size cfg ymin' ymax' xmin' xmax' sigma_size' ∧
    (get_box_size cfg ymin ymax xmin xmax sigma_size ∈ cfg.allowed_box_sizes ∨
     get_box_size cfg ymin ymax xmin xmax sigma_size = cfg.max_box_size) := by
  have L := get_box_size_least cfg h1 h2 hall ymin ymax xmin xmax sigma_size
  have L' := get_box_size_least cfg h1 h2 hall ymin' ymax' xmin' xmax' sigma_size'
  have hclip : clip_box cfg ymin ymax xmin xmax sigma_size ≤
      clip_box cfg ymin' ymax' xmin' xmax' sigma_size' := by
    unfold clip_box npClip
    have hcand : max (max (xmax - xmin + 1) (ymax - ymin + 1)) sigma_size ≤
        max (max (xmax' - xmin' + 1) (ymax' - ymin' + 1)) sigma_size' :=
      max_le_max (max_le_max (by omega) (by omega)) hsig
    exact min_le_min (max_le_max hcand (le_refl _)) (le_refl _)
  constructor
  · exact L.2.2 _ L'.1 (le_trans hclip L'.2.1)
  · have hpos : 1 ≤ get_box_size cfg ymin ymax xmin xmax sigma_size :=
      le_trans (le_trans h1 (min_le_clip_box cfg h2 ymin ymax xmin xmax sigma_size)) L.2.1
    rcases mem_boxBins_cases cfg L.1 with h0 | hmem | hmax
    · omega
    · exact Or.inl hmem
    · exact Or.inr hmax

theorem C7_box_size_monotone_member_witness :
    get_box_size ⟨16, 256, [16, 32, 64, 128, 256]⟩ 1 10 1 10 8 ≤
      get_box_size ⟨16, 256, [16, 32, 64, 128, 256]⟩ 1 50 1 50 40 ∧
    (get_box_size ⟨16, 256, [16, 32, 64, 128, 256]⟩ 1 10 1 10 8 ∈
        ([16, 32, 64, 128, 256] : List Int) ∨
     get_box_size ⟨16, 256, [16, 32, 64, 128, 256]⟩ 1 10 1 10 8 = 256) :=
  C7_box_size_monotone_member ⟨16, 256, [16, 32, 64, 128, 256]⟩
    (by decide) (by decide) (by decide) 1 10 1 10 8 1 50 1 50 40
    (by decide) (by decide) (by decide)

/-! ### Claim C8 -/

/-- C8: scale rows are computed per image row from that row's own
zero-point as `10^(0.4*(magzp_ref - magzp))`; the scale is exactly 1
when `magzp = magzp_ref`, and is strictly antitone in `magzp`. -/
theorem C8_get_scale :
    (∀ (magzp_ref : ℝ) (magzps : List ℝ) (i : Nat),
      (image_scales magzp_ref magzps)[i]? =
        (magzps[i]?).map (get_scale magzp_ref)) ∧
    (∀ magzp_ref : ℝ, get_scale magzp_ref magzp_ref = 1) ∧
    (∀ magzp_ref m₁ m₂ : ℝ, m₁ < m₂ →
      get_scale magzp_ref m₂ < get_scale magzp_ref m₁) := by
  refine ⟨fun r zps i => List.getElem?_map _ _ _, fun r => ?_, fun r m₁ m₂ h => ?_⟩
  · simp [get_scale, image_scales]
  · have h10 : (1 : ℝ) < 10 := by norm_num
    apply (Real.rpow_lt_rpow_left_iff h10).mpr
    linarith

theorem C8_get_scale_witness :
    get_scale 0 1 < get_scale 0 0 ∧ get_scale 0 0 = 1 :=
  ⟨C8_get_scale.2.2 0 0 1 (by norm_num), C8_get_scale.2.1 0⟩

/-! ### Sorting by a key: uniqueness of the sorted arrangement -/

lemma sortByKey_pairwise {α β : Type} [LinearOrder β] (key : α → β) (l : List α) :
    (l.mergeSort (fun a b => decide (key a ≤ key b))).Pairwise
      (fun a b => key a ≤ key b) := by
  have h := @List.sorted_mergeSort α (fun a b => decide (key a ≤ key b))
    (fun a b c hab hbc => by
      simp only [decide_eq_true_eq] at *
      exact le_trans hab hbc)
    (fun a b => by
      simp only [Bool.or_eq_true, decide_eq_true_eq]
      exact le_total (key a) (key b)) l
  exact h.imp (fun hab => by simpa using hab)

/-- A sort by a key function has a unique possible result when the keys
are pairwise distinct: any key-sorted arrangement `out` of the input is
the result of `mergeSort`. -/
lemma mergeSort_eq_of_key_nodup {α β : Type} [LinearOrder β] (key : α → β)
    (l out : List α) (hperm : l.Perm out) (hnodup : (out.map key).Nodup)
    (hsort : out.Pairwise (fun a b => key a ≤ key b)) :
    l.mergeSort (fun a b => decide (key a ≤ key b)) = out := by
  have hsp : (l.mergeSort (fun a b => decide (key a ≤ key b))).Perm out :=
    (List.mergeSort_perm l _).trans hperm
  have hnod_s : ((l.mergeSort (fun a b => decide (key a ≤ key b))).map key).Nodup :=
    ((hsp.map key).symm).nodup hnodup
  have hlt_s : (l.mergeSort (fun a b => decide (key a ≤ key b))).Pairwise
      (fun a b => key a < key b) := by
    have hne := List.pairwise_map.mp hnod_s
    exact ((sortByKey_pairwise key l).and hne).imp
      (fun h => lt_of_le_of_ne h.1 h.2)
  have hlt_out : out.Pairwise (fun a b => key a < key b) := by
    have hne := List.pairwise_map.mp hnodup
    exact (hsort.and hne).imp (fun h => lt_of_le_of_ne h.1 h.2)
  haveI : IsAntisymm α (fun a b => key a < key b) :=
    ⟨fun a b h1 h2 => ((lt_asymm h1) h2).elim⟩
  exact List.eq_of_perm_of_sorted hsp hlt_s hlt_out

/-! ### Claim C1 -/

/-- C1 amended: on record lists whose MD5 digests (of the concatenated
exposure/ccd strings) are pairwise distinct, the canonical sort is
invariant under permutation of the input, returns the same records, and
orders them ascending by digest. -/
lemma sort_list_def (l : List SrcInfo) :
    sort_list l = l.mergeSort (fun a b => decide (md5key a ≤ md5key b)) := rfl

set_option maxHeartbeats 2000000 in
theorem C1_sort_list_perm_invariant (l₁ l₂ : List SrcInfo)
    (hperm : l₁.Perm l₂) (hnodup : (l₁.map md5key).Nodup) :
    sort_list l₁ = sort_list l₂ ∧ (sort_list l₁).Perm l₁ ∧
    (sort_list l₁).Pairwise (fun a b => md5key a ≤ md5key b) := by
  simp only [sort_list_def]
  refine ⟨?_, List.mergeSort_perm l₁ _, sortByKey_pairwise md5key l₁⟩
  have hperm₂ : l₂.Perm (l₁.mergeSort (fun a b => decide (md5key a ≤ md5key b))) :=
    (hperm.symm).trans (List.mergeSort_perm l₁ _).symm
  have hnod : ((l₁.mergeSort (fun a b => decide (md5key a ≤ md5key b))).map md5key).Nodup :=
    (((List.mergeSort_perm l₁ _).map md5key)).symm.nodup hnodup
  exact (mergeSort_eq_of_key_nodup md5key l₂ _ hperm₂ hnod
    (sortByKey_pairwise md5key l₁)).symm

/-- Two records with distinct `(expnum, ccdnum)` pairs but identical
concatenated hash strings `"123"`. -/
def cexRec1 : SrcInfo :=
  { tilename := "t", expnum := 1, ccdnum := 23, filename := "f1",
    compression := ".fz", path := "p", band := "r", pfw_attempt_id := 0,
    magzp := 30 }

def cexRec2 : SrcInfo :=
  { tilename := "t", expnum := 12, ccdnum := 3, filename := "f2",
    compression := ".fz", path := "p", band := "r", pfw_attempt_id := 0,
    magzp := 30 }

lemma cexRec_md5key_eq : md5key cexRec1 = md5key cexRec2 := rfl

/-- C1 counterexample: a two-record list with unique `(expnum, ccdnum)`
pairs on which the canonical sort is *not* invariant under permutation:
both arrival orders are returned unchanged, because the two hash
strings `"1"+"23"` and `"12"+"3"` coincide, so the MD5 keys tie. -/
theorem C1_sort_list_order_dependent_cex :
    (cexRec1.expnum, cexRec1.ccdnum) ≠ (cexRec2.expnum, cexRec2.ccdnum) ∧
    [cexRec1, cexRec2].Perm [cexRec2, cexRec1] ∧
    sort_list [cexRec1, cexRec2] = [cexRec1, cexRec2] ∧
    sort_list [cexRec2, cexRec1] = [cexRec2, cexRec1] ∧
    sort_list [cexRec1, cexRec2] ≠ sort_list [cexRec2, cexRec1] := by
  have hkey : md5key cexRec1 = md5key cexRec2 := cexRec_md5key_eq
  have h12 : sort_list [cexRec1, cexRec2] = [cexRec1, cexRec2] := by
    apply List.mergeSort_of_sorted
    refine List.pairwise_cons.mpr ⟨?_, List.pairwise_singleton _ _⟩
    intro b hb
    simp only [List.mem_singleton] at hb
    subst hb
    simp [hkey]
  have h21 : sort_list [cexRec2, cexRec1] = [cexRec2, cexRec1] := by
    apply List.mergeSort_of_sorted
    refine List.pairwise_cons.mpr ⟨?_, List.pairwise_singleton _ _⟩
    intro b hb
    simp only [List.mem_singleton] at hb
    subst hb
    simp [hkey]
  refine ⟨by decide, List.Perm.swap _ _ _, h12, h21, ?_⟩
  rw [h12, h21]
  decide

/-- Two records with distinct hash strings `"11"` and `"22"` (whose MD5
digests differ). -/
def witRec1 : SrcInfo :=
  { tilename := "t", expnum := 1, ccdnum := 1, filename := "g1",
    compression := ".fz", path := "p", band := "r", pfw_attempt_id := 0,
    magzp := 30 }

def witRec2 : SrcInfo :=
  { tilename := "t", expnum := 2, ccdnum := 2, filename := "g2",
    compression := ".fz", path := "p", band := "r", pfw_attempt_id := 0,
    magzp := 30 }

theorem C1_sort_list_perm_invariant_witness :
    sort_list [witRec1, witRec2] = sort_list [witRec2, witRec1] ∧
    (sort_list [witRec1, witRec2]).Perm [witRec1, witRec2] :=
  ⟨(C1_sort_list_perm_invariant [witRec1, witRec2] [witRec2, witRec1]
      (List.Perm.swap _ _ _) (by decide)).1,
   (C1_sort_list_perm_invariant [witRec1, witRec2] [witRec2, witRec1]
      (List.Perm.swap _ _ _) (by decide)).2.1⟩

/-! ### Claims C6 and C10: identity reconciliation -/

/-- The identity lookup result sorted by object number (the
`numpy.argsort` at `maker.py` line 438). -/
def sorted_iddata (iddata : List IdRow) : List IdRow :=
  iddata.mergeSort (fun a b => decide (a.object_number ≤ b.object_number))

lemma build_object_data_def (catNumbers : List Int) (iddata : List IdRow) :
    build_object_data catNumbers iddata =
      if catNumbers = (sorted_iddata iddata).map IdRow.object_number then
        Except.ok (List.zipWith (fun n r => (⟨n, r.coadd_objects_id⟩ : ObjRecord))
          catNumbers (sorted_iddata iddata))
      else Except.error PyErr.assertError := rfl

lemma zipWith_mk_map_number : ∀ (l₁ : List Int) (l₂ : List IdRow),
    l₁.length = l₂.length →
    (List.zipWith (fun n r => (⟨n, r.coadd_objects_id⟩ : ObjRecord)) l₁ l₂).map
      ObjRecord.number = l₁
  | [], [], _ => rfl
  | [], _ :: _, h => by simp at h
  | _ :: _, [], h => by simp at h
  | a :: l₁, b :: l₂, h => by
    simp only [List.zipWith_cons_cons, List.map_cons]
    rw [zipWith_mk_map_number l₁ l₂ (by simpa using h)]

lemma zipWith_mk_map_id : ∀ (l₁ : List Int) (l₂ : List IdRow),
    l₁.length = l₂.length →
    (List.zipWith (fun n r => (⟨n, r.coadd_objects_id⟩ : ObjRecord)) l₁ l₂).map
      ObjRecord.id = l₂.map IdRow.coadd_objects_id
  | [], [], _ => rfl
  | [], _ :: _, h => by simp at h
  | _ :: _, [], h => by simp at h
  | a :: l₁, b :: l₂, h => by
    simp only [List.zipWith_cons_cons, List.map_cons]
    rw [zipWith_mk_map_id l₁ l₂ (by simpa using h)]

lemma zipWith_mk_id_mem : ∀ (l₁ : List Int) (l₂ : List IdRow) (r : ObjRecord),
    r ∈ List.zipWith (fun n r => (⟨n, r.coadd_objects_id⟩ : ObjRecord)) l₁ l₂ →
    ∃ b ∈ l₂, r.id = b.coadd_objects_id
  | [], _, r, h => by simp at h
  | _ :: _, [], r, h => by simp at h
  | a :: l₁, b :: l₂, r, h => by
    rcases List.mem_cons.mp h with rfl | h'
    · exact ⟨b, List.mem_cons_self _ _, rfl⟩
    · obtain ⟨b', hb', he⟩ := zipWith_mk_id_mem l₁ l₂ r h'
      exact ⟨b', List.mem_cons_of_mem _ hb', he⟩

/-- C6: object-data construction sorts the identity lookup by object
number and requires elementwise equality with the catalog numbers; on
a match it succeeds, assigning each unique identifier in catalog order
(the emitted numbers are the catalog numbers, the emitted ids are the
sorted lookup's ids, and the sorted lookup is a permutation of the
lookup result); on any mismatch it fails with the assertion error and
produces no record list. -/
theorem C6_identity_reconciliation (catNumbers : List Int) (iddata : List IdRow) :
    (catNumbers = (sorted_iddata iddata).map IdRow.object_number →
      build_object_data catNumbers iddata =
        Except.ok (List.zipWith (fun n r => (⟨n, r.coadd_objects_id⟩ : ObjRecord))
          catNumbers (sorted_iddata iddata)) ∧
      (sorted_iddata iddata).Perm iddata ∧
      (List.zipWith (fun n r => (⟨n, r.coadd_objects_id⟩ : ObjRecord))
        catNumbers (sorted_iddata iddata)).map ObjRecord.number = catNumbers ∧
      (List.zipWith (fun n r => (⟨n, r.coadd_objects_id⟩ : ObjRecord))
        catNumbers (sorted_iddata iddata)).map ObjRecord.id =
          (sorted_iddata iddata).map IdRow.coadd_objects_id) ∧
    (catNumbers ≠ (sorted_iddata iddata).map IdRow.object_number →
      build_object_data catNumbers iddata = Except.error PyErr.assertError) := by
  constructor
  · intro h
    have hlen : catNumbers.length = (sorted_iddata iddata).length := by
      rw [h, List.length_map]
    refine ⟨?_, List.mergeSort_perm iddata _,
      zipWith_mk_map_number _ _ hlen, zipWith_mk_map_id _ _ hlen⟩
    rw [build_object_data_def, if_pos h]
  · intro h
    rw [build_object_data_def, if_neg h]

theorem C6_identity_reconciliation_witness :
    build_object_data [1, 2, 3] [⟨2, 20⟩, ⟨1, 10⟩, ⟨3, 30⟩] =
      Except.ok [⟨1, 10⟩, ⟨2, 20⟩, ⟨3, 30⟩] ∧
    (sorted_iddata [⟨2, 20⟩, ⟨1, 10⟩, ⟨3, 30⟩]).Perm [⟨2, 20⟩, ⟨1, 10⟩, ⟨3, 30⟩] ∧
    build_object_data [1, 2] [⟨2, 20⟩, ⟨1, 10⟩, ⟨3, 30⟩] =
      Except.error PyErr.assertError := by
  have hs : sorted_iddata [⟨2, 20⟩, ⟨1, 10⟩, ⟨3, 30⟩] =
      [⟨1, 10⟩, ⟨2, 20⟩, ⟨3, 30⟩] :=
    mergeSort_eq_of_key_nodup IdRow.object_number _ _ (by decide) (by decide)
      (by decide)
  have h := (C6_identity_reconciliation [1, 2, 3]
    [⟨2, 20⟩, ⟨1, 10⟩, ⟨3, 30⟩]).1 (by rw [hs]; decide)
  have hmiss := (C6_identity_reconciliation [1, 2]
    [⟨2, 20⟩, ⟨1, 10⟩, ⟨3, 30⟩]).2 (by rw [hs]; decide)
  refine ⟨?_, h.2.1, hmiss⟩
  have h1 := h.1
  rw [hs] at h1
  exact h1.trans (congrArg Except.ok (by decide))

lemma desdm_iddata_def (nobj : Nat) :
    desdm_iddata nobj = (List.range nobj).map (fun i => ⟨1 + Int.ofNat i, -1⟩) :=
  rfl

lemma desdm_build_object_data_def (catNumbers : List Int) :
    desdm_build_object_data catNumbers =
      build_object_data (catNumbers.mergeSort (fun a b => decide (a ≤ b)))
        (desdm_iddata catNumbers.length) := rfl

/-- C10: in the DESDM variant the identity lookup is mocked as
`object_number = 1..N`, `coadd_objects_id = -1`; construction succeeds
iff the sorted catalog numbers are exactly `[1, ..., N]`, and then every
emitted record has id `-1`. -/
theorem C10_desdm_object_data (catNumbers : List Int) :
    (catNumbers.mergeSort (fun a b => decide (a ≤ b)) =
        (List.range catNumbers.length).map (fun i => 1 + Int.ofNat i) →
      desdm_build_object_data catNumbers =
        Except.ok (List.zipWith (fun n r => (⟨n, r.coadd_objects_id⟩ : ObjRecord))
          (catNumbers.mergeSort (fun a b => decide (a ≤ b)))
          (desdm_iddata catNumbers.length)) ∧
      ∀ r ∈ List.zipWith (fun n r => (⟨n, r.coadd_objects_id⟩ : ObjRecord))
          (catNumbers.mergeSort (fun a b => decide (a ≤ b)))
          (desdm_iddata catNumbers.length), r.id = -1) ∧
    (catNumbers.mergeSort (fun a b => decide (a ≤ b)) ≠
        (List.range catNumbers.length).map (fun i => 1 + Int.ofNat i) →
      desdm_build_object_data catNumbers = Except.error PyErr.assertError) := by
  have hiddata_sorted : sorted_iddata (desdm_iddata catNumbers.length) =
      desdm_iddata catNumbers.length := by
    apply List.mergeSort_of_sorted
    have hr : (List.range catNumbers.length).Pairwise (· < ·) :=
      List.pairwise_lt_range _
    rw [desdm_iddata_def, List.pairwise_map]
    exact hr.imp (fun hab => by
      simp only [decide_eq_true_eq]
      exact add_le_add_left (Int.ofNat_le.mpr (Nat.le_of_lt hab)) 1)
  have hmap : (desdm_iddata catNumbers.length).map IdRow.object_number =
      (List.range catNumbers.length).map (fun i => 1 + Int.ofNat i) := by
    rw [desdm_iddata_def, List.map_map]
    rfl
  constructor
  · intro h
    constructor
    · rw [desdm_build_object_data_def, build_object_data_def, hiddata_sorted,
        hmap, if_pos h]
    · intro r hr
      obtain ⟨b, hb, he⟩ := zipWith_mk_id_mem _ _ r hr
      rw [he]
      rw [desdm_iddata_def] at hb
      obtain ⟨i, _, rfl⟩ := List.mem_map.mp hb
      rfl
  · intro h
    rw [desdm_build_object_data_def, build_object_data_def, hiddata_sorted,
      hmap, if_neg h]

theorem C10_desdm_object_data_witness :
    desdm_build_object_data [2, 1, 3] =
      Except.ok [⟨1, -1⟩, ⟨2, -1⟩, ⟨3, -1⟩] ∧
    desdm_build_object_data [2, 5, 3] = Except.error PyErr.assertError := by
  have hs : ([2, 1, 3] : List Int).mergeSort (fun a b => decide (a ≤ b)) =
      [1, 2, 3] :=
    mergeSort_eq_of_key_nodup (fun x : Int => x) _ _ (by decide) (by decide)
      (by decide)
  have hs' : ([2, 5, 3] : List Int).mergeSort (fun a b => decide (a ≤ b)) =
      [2, 3, 5] :=
    mergeSort_eq_of_key_nodup (fun x : Int => x) _ _ (by decide) (by decide)
      (by decide)
  constructor
  · have h := (C10_desdm_object_data [2, 1, 3]).1 (by rw [hs]; decide)
    have h1 := h.1
    rw [hs] at h1
    exact h1.trans (congrArg Except.ok (by decide))
  · exact (C10_desdm_object_data [2, 5, 3]).2 (by rw [hs']; decide)

/-! ### Claim C3: compression failure -/

lemma fsExists_fsRemove : ∀ (fs : FsState) (p : String),
    fsExists (fsRemove fs p) p = false
  | [], _ => rfl
  | e :: fs, p => by
    rw [fsRemove, List.filter_cons]
    cases hb : (e.1 == p) with
    | true =>
      simpa [hb, fsRemove] using fsExists_fsRemove fs p
    | false =>
      have hb' : (p == e.1) = false := by
        rw [beq_eq_false_iff_ne] at *
        exact fun h => hb h.symm
      simp only [hb, Bool.not_false, if_pos]
      rw [fsExists, List.lookup]
      simpa [hb', fsExists, fsRemove] using fsExists_fsRemove fs p

/-- C3 amended: when the external compressor exits with nonzero status,
`_compress_meds_file` raises the compression error and publishes
nothing; however the final output path is *not* left in its
pre-invocation state: any pre-existing artifact there was already
deleted before the compressor ran, so after the failed run the final
path holds nothing. -/
theorem C3_compress_error_nothing_published (fs : FsState) (fz : String)
    (fpackExit : Int) (fpackOut : String) (h : fpackExit ≠ 0) :
    compress_meds_file fs fz fpackExit fpackOut =
      (if fsExists fs fz then fsRemove fs fz else fs,
        some "failed to compress file") ∧
    fsExists (compress_meds_file fs fz fpackExit fpackOut).1 fz = false := by
  have he : compress_meds_file fs fz fpackExit fpackOut =
      (if fsExists fs fz then fsRemove fs fz else fs,
        some "failed to compress file") := by
    rw [compress_meds_file, if_pos h]
  refine ⟨he, ?_⟩
  rw [he]
  by_cases hex : fsExists fs fz
  · simp only [hex, if_pos]
    exact fsExists_fsRemove fs fz
  · simp only [Bool.not_eq_true] at hex
    simp [hex]

theorem C3_compress_error_nothing_published_witness :
    compress_meds_file [("meds.fits.fz", "old")] "meds.fits.fz" 1 "new" =
      (if fsExists [("meds.fits.fz", "old")] "meds.fits.fz" then
         fsRemove [("meds.fits.fz", "old")] "meds.fits.fz"
       else [("meds.fits.fz", "old")], some "failed to compress file") ∧
    fsExists (compress_meds_file [("meds.fits.fz", "old")] "meds.fits.fz" 1
      "new").1 "meds.fits.fz" = false :=
  C3_compress_error_nothing_published [("meds.fits.fz", "old")] "meds.fits.fz"
    1 "new" (by decide)

/-- C3 counterexample: with a pre-existing artifact at the final path
and a failing compressor, the run errors and the final path afterwards
holds nothing — the pre-existing artifact did **not** survive, so the
path is not "unchanged from its state before the invocation". -/
theorem C3_compress_removes_preexisting_cex :
    fsExists [("meds.fits.fz", "old")] "meds.fits.fz" = true ∧
    (compress_meds_file [("meds.fits.fz", "old")] "meds.fits.fz" 1 "new").2 =
      some "failed to compress file" ∧
    fsExists (compress_meds_file [("meds.fits.fz", "old")] "meds.fits.fz" 1
      "new").1 "meds.fits.fz" = false ∧
    (compress_meds_file [("meds.fits.fz", "old")] "meds.fits.fz" 1 "new").1 ≠
      [("meds.fits.fz", "old")] := by
  refine ⟨rfl, rfl, rfl, ?_⟩
  intro h
  have : ([] : FsState) = [("meds.fits.fz", "old")] := h
  simp at this

/-! ### Claim C4: piff cross-reference -/

lemma piffCut_spec (piffMap : List ((String × String × Int × Int) × (String × String))) :
    ∀ infos : List SrcInfo,
    piffCut piffMap infos =
      (infos.filterMap (fun info => (List.lookup (piffKey info) piffMap).map
        (fun pf => { info with piff_path := some (pathJoin pf.1 pf.2) })),
       (infos.filter
         (fun info => (List.lookup (piffKey info) piffMap).isNone)).length)
  | [] => rfl
  | info :: rest => by
    rw [piffCut, piffCut_spec piffMap rest]
    cases hl : List.lookup (piffKey info) piffMap with
    | some pf => simp [List.filterMap_cons, List.filter_cons, hl]
    | none => simp [List.filterMap_cons, List.filter_cons, hl]

lemma do_query_def (campaign : String) (piffc : Option String)
    (rows : List DbRow)
    (piffMap : List ((String × String × Int × Int) × (String × String))) :
    do_query campaign piffc rows piffMap =
      if strContainsSub campaign "Y6" && piffc.isSome then
        piffCut piffMap (rows.map rowToInfo)
      else (rows.map rowToInfo, 0) := rfl

/-- C4 amended: when the campaign contains `'Y6'` *and* the piff
campaign is configured non-null, fetching sources keeps exactly the
candidates whose `(filename, band, expnum, ccdnum)` key is in the piff
catalog, attaching to each its model-file path, and reports the number
of unmatched candidates as the drop count; kept and dropped always sum
to the candidate count.  (Without `'Y6'` in the campaign no
cross-referencing happens at all — see the counterexample.) -/
theorem C4_piff_crossref (campaign : String) (piffc : Option String)
    (rows : List DbRow)
    (piffMap : List ((String × String × Int × Int) × (String × String)))
    (hY6 : strContainsSub campaign "Y6" = true) (hp : piffc.isSome = true) :
    do_query campaign piffc rows piffMap =
      ((rows.map rowToInfo).filterMap
        (fun info => (List.lookup (piffKey info) piffMap).map
          (fun pf => { info with piff_path := some (pathJoin pf.1 pf.2) })),
       ((rows.map rowToInfo).filter
         (fun info => (List.lookup (piffKey info) piffMap).isNone)).length) ∧
    (do_query campaign piffc rows piffMap).1.length +
      (do_query campaign piffc rows piffMap).2 = rows.length := by
  have hq : do_query campaign piffc rows piffMap =
      piffCut piffMap (rows.map rowToInfo) := by
    rw [do_query_def, hY6, hp]
    rfl
  refine ⟨hq.trans (piffCut_spec piffMap (rows.map rowToInfo)), ?_⟩
  rw [hq, piffCut_spec piffMap (rows.map rowToInfo)]
  have hlen : ∀ l : List SrcInfo,
      (l.filterMap (fun info => (List.lookup (piffKey info) piffMap).map
        (fun pf => { info with piff_path := some (pathJoin pf.1 pf.2) }))).length +
      (l.filter (fun info => (List.lookup (piffKey info) piffMap).isNone)).length =
        l.length := by
    intro l
    induction l with
    | nil => rfl
    | cons info rest ih =>
      rw [List.filterMap_cons, List.filter_cons]
      cases hl : List.lookup (piffKey info) piffMap with
      | some pf =>
        simp [hl]
        omega
      | none =>
        simp [hl]
        omega
  simpa using hlen (rows.map rowToInfo)

/-- A source row for the C4 scenario. -/
def c4row (e : Int) (f : String) : DbRow :=
  { tilename := "T", expnum := e, ccdnum := 1, path := "p", filename := f,
    compression := ".fz", band := "r", pfw_attempt_id := 0, magzp := 30 }

/-- Ten candidates, of which `f9` and `f10` have no piff entry. -/
def c4rows : List DbRow :=
  [c4row 1 "f1", c4row 2 "f2", c4row 3 "f3", c4row 4 "f4", c4row 5 "f5",
   c4row 6 "f6", c4row 7 "f7", c4row 8 "f8", c4row 9 "f9", c4row 10 "f10"]

def c4map : List ((String × String × Int × Int) × (String × String)) :=
  [(("f1", "r", 1, 1), ("pp", "q1")), (("f2", "r", 2, 1), ("pp", "q2")),
   (("f3", "r", 3, 1), ("pp", "q3")), (("f4", "r", 4, 1), ("pp", "q4")),
   (("f5", "r", 5, 1), ("pp", "q5")), (("f6", "r", 6, 1), ("pp", "q6")),
   (("f7", "r", 7, 1), ("pp", "q7")), (("f8", "r", 8, 1), ("pp", "q8"))]

theorem C4_piff_crossref_witness :
    do_query "Y6A2_COADD" (some "Y6A2_PIFF") c4rows c4map =
      ((c4rows.map rowToInfo).filterMap
        (fun info => (List.lookup (piffKey info) c4map).map
          (fun pf => { info with piff_path := some (pathJoin pf.1 pf.2) })),
       ((c4rows.map rowToInfo).filter
         (fun info => (List.lookup (piffKey info) c4map).isNone)).length) ∧
    (do_query "Y6A2_COADD" (some "Y6A2_PIFF") c4rows c4map).1.length = 8 ∧
    (do_query "Y6A2_COADD" (some "Y6A2_PIFF") c4rows c4map).2 = 2 :=
  ⟨(C4_piff_crossref "Y6A2_COADD" (some "Y6A2_PIFF") c4rows c4map rfl rfl).1,
   by decide, by decide⟩

/-- C4 counterexample: with the piff campaign set and non-null but a
campaign not containing `'Y6'` (here `"DR3_1"`), a candidate with *no*
entry in the piff catalog is neither dropped nor counted: the
cross-reference step never runs, the record is returned as-is with no
model-file path, and the reported drop count is 0 (the claim asks for
an empty result and drop count 1 here). -/
theorem C4_no_crossref_without_Y6_cex :
    do_query "DR3_1" (some "Y6A2_PIFF") [c4row 1 "f1"]
        ([] : List ((String × String × Int × Int) × (String × String))) =
      ([rowToInfo (c4row 1 "f1")], 0) ∧
    (rowToInfo (c4row 1 "f1")).piff_path = none ∧
    List.lookup (piffKey (rowToInfo (c4row 1 "f1")))
        ([] : List ((String × String × Int × Int) × (String × String))) =
      none := by decide

/-! ### Claim C5: path derivation -/

deriving instance DecidableEq for Except

lemma startsWithChars_self : ∀ l : List Char, startsWithChars l l = true
  | [] => rfl
  | c :: rest => by simp [startsWithChars, startsWithChars_self rest]

lemma replaceCharsAux_nil (pat rep : List Char) :
    ∀ fuel, replaceCharsAux pat rep fuel [] = []
  | 0 => rfl
  | _ + 1 => rfl

/-- `pat` occurs nowhere in `stem ++ pat` before the final position. -/
def noEarlyOccur (stem pat : List Char) : Prop :=
  ∀ i, i < stem.length → startsWithChars ((stem ++ pat).drop i) pat = false

instance (stem pat : List Char) : Decidable (noEarlyOccur stem pat) := by
  unfold noEarlyOccur
  infer_instance

lemma replaceCharsAux_append (pat rep : List Char) (hne : pat ≠ []) :
    ∀ stem : List Char, noEarlyOccur stem pat →
    replaceCharsAux pat rep (stem ++ pat).length (stem ++ pat) = stem ++ rep
  | [], _ => by
    match pat, hne with
    | c :: rest, _ =>
      show replaceCharsAux (c :: rest) rep ([] ++ (c :: rest)).length
          ([] ++ (c :: rest)) = [] ++ rep
      simp only [List.nil_append, List.length_cons]
      rw [replaceCharsAux]
      simp [startsWithChars_self, replaceCharsAux_nil, List.drop_length]
  | c :: stem, hfresh => by
    have h0 : startsWithChars ((c :: stem) ++ pat) pat = false := by
      have := hfresh 0 (by simp)
      simpa using this
    have hrec := replaceCharsAux_append pat rep hne stem (fun i hi => by
      have := hfresh (i + 1) (by simpa using Nat.succ_lt_succ hi)
      simpa using this)
    have h0' : startsWithChars (c :: (stem ++ pat)) pat = false := by
      rw [← List.cons_append]
      exact h0
    simp only [List.cons_append, List.length_cons]
    rw [replaceCharsAux, if_neg (by simp [h0']), hrec]

lemma strReplace_append (stem pat rep : String) (hne : pat ≠ "")
    (hfresh : noEarlyOccur stem.data pat.data) :
    strReplace (stem ++ pat) pat rep = stem ++ rep := by
  have hne' : pat.data ≠ [] := by
    intro h
    exact hne (String.ext (h.trans rfl))
  have hemp : pat.data.isEmpty = false := by
    cases hd : pat.data with
    | nil => exact absurd hd hne'
    | cons a l => rfl
  apply String.ext
  show replaceChars (stem ++ pat).data pat.data rep.data = (stem ++ rep).data
  rw [String.data_append, String.data_append, replaceChars, if_neg (by simp [hemp])]
  exact replaceCharsAux_append pat.data rep.data hne' stem.data hfresh

lemma append_two (ss : List String) (a b : String) :
    ss ++ [a, b] = (ss ++ [a]) ++ [b] := by simp

/-- C5 amended: (1) for a base directory of the form `.../red/immask`
the bkg/seg/psf transforms produce the sibling directories
`.../red/bkg`, `.../seg`, `.../psf`; (2) a base path whose last segment
is not `immask` fails the assertion for the bkg/seg/psf kinds, but the
piff kind performs *no* marker check and returns the path unchanged;
(3) for a record whose filename is `<stem>immasked.fits` (with no
earlier occurrence of the suffix) the derived artifact paths carry the
kind-specific filename suffixes — `bkg.fits`/`segmap.fits` with the
compression suffix re-appended, `psfexcat.psf` without it — under the
kind's directory, and the image path is filename + compression under
the base directory. -/
theorem C5_path_derivation :
    (∀ ss : List String,
      alt_dir_core (ss ++ ["red", "immask"]) PathType.bkg =
        Except.ok (ss ++ ["red", "bkg"]) ∧
      alt_dir_core (ss ++ ["red", "immask"]) PathType.seg =
        Except.ok (ss ++ ["seg"]) ∧
      alt_dir_core (ss ++ ["red", "immask"]) PathType.psf =
        Except.ok (ss ++ ["psf"])) ∧
    (∀ (path : String) (t : PathType),
      (strSplitSlash path).getLast? ≠ some "immask" →
      (t ≠ PathType.piff →
        extract_alt_dir path t = Except.error PyErr.assertError) ∧
      extract_alt_dir path PathType.piff = Except.ok path) ∧
    (∀ (info : SrcInfo) (dSeg dBkg dPsf stem comp : String),
      extract_alt_dir info.path PathType.seg = Except.ok dSeg →
      extract_alt_dir info.path PathType.bkg = Except.ok dBkg →
      extract_alt_dir info.path PathType.psf = Except.ok dPsf →
      info.filename = stem ++ "immasked.fits" →
      noEarlyOccur stem.data ("immasked.fits").data →
      info.compression = comp →
      add_full_paths_one none info = Except.ok
        { info with
          image_path := some (pathJoin info.path (info.filename ++ comp)),
          bkg_path := some (pathJoin dBkg (stem ++ "bkg.fits" ++ comp)),
          seg_path := some (pathJoin dSeg (stem ++ "segmap.fits" ++ comp)),
          psf_path := some (pathJoin dPsf (stem ++ "psfexcat.psf")) }) := by
  refine ⟨?_, ?_, ?_⟩
  · intro ss
    have h1 : (ss ++ ["red", "immask"]).getLast? = some "immask" := by
      rw [append_two, List.getLast?_concat]
    have h2 : (ss ++ ["red", "immask"]).dropLast = ss ++ ["red"] := by
      rw [append_two, List.dropLast_concat]
    refine ⟨?_, ?_, ?_⟩ <;>
      simp [alt_dir_core, h1, h2, List.getLast?_concat, List.dropLast_concat]
  · intro path t hne
    constructor
    · intro ht
      cases t with
      | piff => exact absurd rfl ht
      | seg => simp [extract_alt_dir, alt_dir_core, hne, Except.map]
      | bkg => simp [extract_alt_dir, alt_dir_core, hne, Except.map]
      | psf => simp [extract_alt_dir, alt_dir_core, hne, Except.map]
    · rfl
  · intro info dSeg dBkg dPsf stem comp hseg hbkg hpsf hname hfresh hcomp
    have hnept : ("immasked.fits" : String) ≠ "" := by decide
    have hrb : strReplace info.filename "immasked.fits" "bkg.fits" =
        stem ++ "bkg.fits" := by
      rw [hname]
      exact strReplace_append stem "immasked.fits" "bkg.fits" hnept hfresh
    have hrs : strReplace info.filename "immasked.fits" "segmap.fits" =
        stem ++ "segmap.fits" := by
      rw [hname]
      exact strReplace_append stem "immasked.fits" "segmap.fits" hnept hfresh
    have hrp : strReplace info.filename "immasked.fits" "psfexcat.psf" =
        stem ++ "psfexcat.psf" := by
      rw [hname]
      exact strReplace_append stem "immasked.fits" "psfexcat.psf" hnept hfresh
    have hdirs : get_all_dirs none info =
        Except.ok ⟨info.path, dSeg, dBkg, dPsf, none⟩ := by
      simp only [get_all_dirs, get_dirs, hseg, hbkg, hpsf]
      rfl
    simp only [add_full_paths_one, hdirs, hrb, hrs, hrp, hcomp]
    rfl

/-- A concrete conforming record for the C5 witness. -/
def c5info : SrcInfo :=
  { tilename := "T", expnum := 1, ccdnum := 2,
    filename := "D00596130_r_c01_immasked.fits", compression := ".fz",
    path := "OPS/red/immask", band := "r", pfw_attempt_id := 0, magzp := 30 }

theorem C5_path_derivation_witness :
    (alt_dir_core (["OPS", "finalcut"] ++ ["red", "immask"]) PathType.bkg =
      Except.ok (["OPS", "finalcut"] ++ ["red", "bkg"])) ∧
    extract_alt_dir "OPS/finalcut/xyz" PathType.bkg =
      Except.error PyErr.assertError ∧
    add_full_paths_one none c5info = Except.ok
      { c5info with
        image_path := some (pathJoin c5info.path (c5info.filename ++ ".fz")),
        bkg_path := some (pathJoin "OPS/red/bkg"
          ("D00596130_r_c01_" ++ "bkg.fits" ++ ".fz")),
        seg_path := some (pathJoin "OPS/seg"
          ("D00596130_r_c01_" ++ "segmap.fits" ++ ".fz")),
        psf_path := some (pathJoin "OPS/psf"
          ("D00596130_r_c01_" ++ "psfexcat.psf")) } :=
  ⟨(C5_path_derivation.1 ["OPS", "finalcut"]).1,
   (C5_path_derivation.2.1 "OPS/finalcut/xyz" PathType.bkg (by decide)).1
     (by decide),
   C5_path_derivation.2.2 c5info "OPS/seg" "OPS/red/bkg" "OPS/psf"
     "D00596130_r_c01_" ".fz" (by decide) (by decide) (by decide) (by decide)
     (by decide) rfl⟩

/-- C5 counterexample: on the non-conforming base path
`"OPS/finalcut/xyz"` the piff kind raises nothing and returns the path
unchanged (the claim says every kind, piff included, raises
PathConventionError); and on the marker-conforming base path
`"a/b/immask"` whose parent segment is not `red`, the seg kind raises
even though the claim promises success for every path ending in the
marker. -/
theorem C5_path_derivation_cex :
    extract_alt_dir "OPS/finalcut/xyz" PathType.piff =
      Except.ok "OPS/finalcut/xyz" ∧
    (strSplitSlash "OPS/finalcut/xyz").getLast? ≠ some "immask" ∧
    extract_alt_dir "a/b/immask" PathType.seg =
      Except.error PyErr.assertError ∧
    (strSplitSlash "a/b/immask").getLast? = some "immask" := by decide

/-! ### Claim C9: KeyError on piff path derivation without Y6 -/

/-- A base image path following the expected `.../red/immask`
convention. -/
def pathConforms (p : String) : Prop :=
  (strSplitSlash p).getLast? = some "immask" ∧
  ((strSplitSlash p).dropLast).getLast? = some "red"

instance (p : String) : Decidable (pathConforms p) := by
  unfold pathConforms
  infer_instance

lemma extract_ok_of_conforms (p : String) (h : pathConforms p) :
    (∃ d, extract_alt_dir p PathType.seg = Except.ok d) ∧
    (∃ d, extract_alt_dir p PathType.bkg = Except.ok d) ∧
    (∃ d, extract_alt_dir p PathType.psf = Except.ok d) := by
  obtain ⟨h1, h2⟩ := h
  refine
    ⟨⟨String.intercalate "/" ((strSplitSlash p).dropLast.dropLast ++ ["seg"]), ?_⟩,
     ⟨String.intercalate "/" ((strSplitSlash p).dropLast ++ ["bkg"]), ?_⟩,
     ⟨String.intercalate "/" ((strSplitSlash p).dropLast.dropLast ++ ["psf"]), ?_⟩⟩ <;>
    simp [extract_alt_dir, alt_dir_core, h1, h2, Except.map]

lemma get_all_dirs_keyerror (pc : String) (info : SrcInfo)
    (hpp : info.piff_path = none) (hconf : pathConforms info.path) :
    get_all_dirs (some pc) info = Except.error PyErr.keyError := by
  obtain ⟨⟨dS, hS⟩, ⟨dB, hB⟩, ⟨dP, hP⟩⟩ := extract_ok_of_conforms info.path hconf
  simp only [get_all_dirs, get_dirs, hS, hB, hP, hpp]
  rfl

lemma add_full_paths_one_keyerror (pc : String) (info : SrcInfo)
    (hpp : info.piff_path = none) (hconf : pathConforms info.path) :
    add_full_paths_one (some pc) info = Except.error PyErr.keyError := by
  simp only [add_full_paths_one, get_all_dirs_keyerror pc info hpp hconf]
  rfl

lemma add_full_paths_cons_error (piffc : Option String) (info : SrcInfo)
    (rest : List SrcInfo) (e : PyErr)
    (h : add_full_paths_one piffc info = Except.error e) :
    add_full_paths piffc (info :: rest) = Except.error e := by
  simp only [add_full_paths, h]
  rfl

lemma get_info_def (campaign : String) (piffc : Option String)
    (rows : List DbRow)
    (piffMap : List ((String × String × Int × Int) × (String × String))) :
    get_info campaign piffc rows piffMap =
      add_full_paths piffc
        (sort_list (do_query campaign piffc rows piffMap).1) := rfl

/-- C9: when `piff_campaign` is configured non-null but the campaign
does not contain `'Y6'`, the piff cross-reference never runs, no record
gains a `piff_path` key, and `get_info` (with at least one source
record, all records following the path convention so that the earlier
assertions pass) dies with an unguarded `KeyError` reading
`info['piff_path']` during path derivation — not with any declared
error type. -/
theorem C9_keyerror_without_Y6 (campaign pc : String) (rows : List DbRow)
    (piffMap : List ((String × String × Int × Int) × (String × String)))
    (hY6 : strContainsSub campaign "Y6" = false) (hne : rows ≠ [])
    (hconf : ∀ r ∈ rows, pathConforms r.path) :
    get_info campaign (some pc) rows piffMap = Except.error PyErr.keyError := by
  have hq : do_query campaign (some pc) rows piffMap = (rows.map rowToInfo, 0) := by
    rw [do_query_def, hY6]
    rfl
  rw [get_info_def, hq]
  have hperm : (sort_list (rows.map rowToInfo)).Perm (rows.map rowToInfo) := by
    rw [sort_list_def]
    exact List.mergeSort_perm _ _
  have hlen : sort_list (rows.map rowToInfo) ≠ [] := by
    intro h0
    have hl := hperm.length_eq
    rw [h0, List.length_nil, List.length_map] at hl
    exact hne (List.length_eq_zero.mp hl.symm)
  obtain ⟨s, t, hst⟩ := List.exists_cons_of_ne_nil hlen
  rw [hst]
  have hsmem : s ∈ rows.map rowToInfo := hperm.subset (by
    rw [hst]
    exact List.mem_cons_self _ _)
  obtain ⟨row, hrow, rfl⟩ := List.mem_map.mp hsmem
  exact add_full_paths_cons_error _ _ _ _
    (add_full_paths_one_keyerror pc _ rfl (hconf row hrow))

/-- A conforming source row for the C9 witness. -/
def c9row : DbRow :=
  { tilename := "T", expnum := 3, ccdnum := 4, path := "OPS/red/immask",
    filename := "D_immasked.fits", compression := ".fz", band := "r",
    pfw_attempt_id := 0, magzp := 30 }

theorem C9_keyerror_without_Y6_witness :
    get_info "DR3_1" (some "Y6A2_PIFF") [c9row]
        ([] : List ((String × String × Int × Int) × (String × String))) =
      Except.error PyErr.keyError :=
  C9_keyerror_without_Y6 "DR3_1" "Y6A2_PIFF" [c9row] [] (by decide)
    (by decide) (by decide)
